import Mathlib

/-!
Verification of the `openssh-sftp-protocol` codec (SFTP v3 over the SSH wire
format) against its natural-language specification.

The Rust sources are shallowly embedded:

* integer wire values are `Nat` (Rust `u8` / `u32` / `u64`; where bit width
  matters the functions take the masks explicitly, exactly as the source does);
* the serde data model used by `ssh_format` and by the crate's own
  `serde_test`-based tests is embedded as a `Token` stream: serializers
  produce `List Token`, deserializers consume a `List Token` and return the
  remaining stream;
* `ServerVersion::deserialize`, which works on raw bytes through
  `ssh_format::Deserializer::from_bytes`, is embedded at byte level
  (`List Nat`, every element a `u8`);
* fallible Rust code returns `Except` / `Option`; the one Rust panic site
  (`FileType::from_u32(filetype).unwrap()` in `FileAttrs::get_filetype`) is
  made explicit as an outer `Option` layer whose `none` means "panics".

The crate file `src/constants.rs` is declared by `lib.rs` but is not part of
the provided sources; its constants are modelled from the specification
(sections 4.4, 4.5 and 6) and cross-checked against the crate's unit tests.
-/

/-! ## Serde data-model tokens (`ssh_format` / `serde_test`) -/

/-- One element of the serde data model as exercised by this crate:
unsigned integers of the three wire widths and length-prefixed byte strings. -/
inductive Token where
  | u8 (v : Nat)
  | u32 (v : Nat)
  | u64 (v : Nat)
  | bytes (v : List Nat)
  | str (v : String)
deriving DecidableEq

/-- Deserialization errors, mirroring the `serde::de::Error` constructors the
crate uses: `invalid_length` (from `SeqIter::get_next` running off the end),
a type mismatch, and `invalid_value` carrying the offending unsigned value. -/
inductive DeError where
  | invalidLength
  | invalidType
  | invalidValue (v : Nat)
  | custom
deriving DecidableEq

/-- Reading a `u8` element, as `SeqIter::get_next::<u8>`. -/
def readU8Tok : List Token → Except DeError (Nat × List Token)
  | Token.u8 v :: rest => Except.ok (v, rest)
  | _ :: _ => Except.error DeError.invalidType
  | [] => Except.error DeError.invalidLength

/-- Reading a `u32` element, as `SeqIter::get_next::<u32>`. -/
def readU32Tok : List Token → Except DeError (Nat × List Token)
  | Token.u32 v :: rest => Except.ok (v, rest)
  | _ :: _ => Except.error DeError.invalidType
  | [] => Except.error DeError.invalidLength

/-- Reading a `u64` element, as `SeqIter::get_next::<u64>`. -/
def readU64Tok : List Token → Except DeError (Nat × List Token)
  | Token.u64 v :: rest => Except.ok (v, rest)
  | _ :: _ => Except.error DeError.invalidType
  | [] => Except.error DeError.invalidLength

/-- Reading a byte-string element, as `SeqIter::get_next::<&[u8]>`. -/
def readBytesTok : List Token → Except DeError (List Nat × List Token)
  | Token.bytes v :: rest => Except.ok (v, rest)
  | _ :: _ => Except.error DeError.invalidType
  | [] => Except.error DeError.invalidLength

/-- Reading a string element, as `get_next::<&str>`. -/
def readStrTok : List Token → Except DeError (String × List Token)
  | Token.str v :: rest => Except.ok (v, rest)
  | _ :: _ => Except.error DeError.invalidType
  | [] => Except.error DeError.invalidLength

/-! ## Constants

`SSH_FILEXFER_ATTR_*` and the opcode / status constants live in the crate's
`constants.rs`, which is not among the provided sources. Modelled from the
spec: section 6 tabulates the attribute-flag values, the open-flag values and
the extension name/revision pairs, and sections 4.4 / 4.5 tabulate the opcode
and status-code values. The unit tests in `file_attrs.rs` confirm the four
attribute-flag values. The `libc` mode constants are the POSIX values also
listed in spec section 3. -/

def SSH_FILEXFER_ATTR_SIZE : Nat := 0x00000001
def SSH_FILEXFER_ATTR_UIDGID : Nat := 0x00000002
def SSH_FILEXFER_ATTR_PERMISSIONS : Nat := 0x00000004
def SSH_FILEXFER_ATTR_ACMODTIME : Nat := 0x00000008
def SSH_FILEXFER_ATTR_EXTENDED : Nat := 0x80000000

/-- POSIX `libc::S_IFMT`, the file-type mask of `st_mode`. -/
def S_IFMT : Nat := 0o170000

def S_IFSOCK : Nat := 0o140000
def S_IFLNK : Nat := 0o120000
def S_IFREG : Nat := 0o100000
def S_IFBLK : Nat := 0o060000
def S_IFDIR : Nat := 0o040000
def S_IFCHR : Nat := 0o020000
def S_IFIFO : Nat := 0o010000

/-- Mask of the twelve `Permissions` bitflags: `S_ISUID | S_ISGID | S_ISVTX`
and the nine `rwx` bits, i.e. the set of bits `bitflags` regards as defined
for `Permissions` (used by `from_bits_truncate`). -/
def PERMISSIONS_MASK : Nat := 0o7777

/-! ## `file_attrs.rs`: flags, permissions, file types, timestamps -/

/-- The private `FileAttrsFlags` bitflags (one `bool` per declared flag bit). -/
structure FileAttrsFlags where
  size : Bool
  id : Bool
  permissions : Bool
  time : Bool
  extensions : Bool
deriving DecidableEq

/-- The empty flag set, `FileAttrsFlags::empty()` / `Default`. -/
def FileAttrsFlags.empty : FileAttrsFlags :=
  ⟨false, false, false, false, false⟩

/-- The `impl Serialize for FileAttrsFlags`: emits a `u32` word built from the
four `SSH_FILEXFER_ATTR_*` data bits. The `EXTENSIONS` flag is never emitted. -/
def FileAttrsFlags.serializeWord (f : FileAttrsFlags) : Nat :=
  (if f.size then SSH_FILEXFER_ATTR_SIZE else 0) |||
  (if f.id then SSH_FILEXFER_ATTR_UIDGID else 0) |||
  (if f.permissions then SSH_FILEXFER_ATTR_PERMISSIONS else 0) |||
  (if f.time then SSH_FILEXFER_ATTR_ACMODTIME else 0)

/-- The `impl Deserialize for FileAttrsFlags`: tests the five mask bits of the
`u32` word (including `SSH_FILEXFER_ATTR_EXTENDED`). -/
def FileAttrsFlags.deserializeWord (w : Nat) : FileAttrsFlags where
  size := w &&& SSH_FILEXFER_ATTR_SIZE != 0
  id := w &&& SSH_FILEXFER_ATTR_UIDGID != 0
  permissions := w &&& SSH_FILEXFER_ATTR_PERMISSIONS != 0
  time := w &&& SSH_FILEXFER_ATTR_ACMODTIME != 0
  extensions := w &&& SSH_FILEXFER_ATTR_EXTENDED != 0

/-- The public `Permissions` bitflags over a `u32`; `bits` is the raw word. -/
structure Permissions where
  bits : Nat
deriving DecidableEq

/-- `bitflags`-generated `Permissions::from_bits_truncate`: keeps only the
twelve defined bits. -/
def Permissions.from_bits_truncate (m : Nat) : Permissions :=
  ⟨m &&& PERMISSIONS_MASK⟩

/-- The `FileType` enum (`#[repr(u32)]`, discriminants the `S_IF*` values). -/
inductive FileType where
  | socket
  | symlink
  | regularFile
  | blockDevice
  | directory
  | characterDevice
  | fifo
deriving DecidableEq

/-- The `num_derive::FromPrimitive`-generated `FileType::from_u32`: succeeds
exactly on the seven discriminant values. -/
def FileType.from_u32 (v : Nat) : Option FileType :=
  if v = S_IFSOCK then some FileType.socket
  else if v = S_IFLNK then some FileType.symlink
  else if v = S_IFREG then some FileType.regularFile
  else if v = S_IFBLK then some FileType.blockDevice
  else if v = S_IFDIR then some FileType.directory
  else if v = S_IFCHR then some FileType.characterDevice
  else if v = S_IFIFO then some FileType.fifo
  else none

/-- `UnixTimeStamp`: seconds since the epoch, stored as a `u32`. -/
structure UnixTimeStamp where
  sec : Nat
deriving DecidableEq

/-- `UnixTimeStamp::unix_epoch()`, also the `Default`. -/
def UnixTimeStamp.unix_epoch : UnixTimeStamp := ⟨0⟩

/-- `UnixTimeStamp::from_raw`: the source checks that
`SystemTime::UNIX_EPOCH.checked_add(Duration::from_secs(elapsed))` exists,
which holds for every `u32` seconds value on the supported platforms
(`SystemTime` spans far beyond `2^32` seconds), so the construction
always succeeds for the `u32` inputs the decoder feeds it. -/
def UnixTimeStamp.from_raw (elapsed : Nat) : Option UnixTimeStamp :=
  some ⟨elapsed⟩

/-- `UnixTimeStamp::into_raw`. -/
def UnixTimeStamp.into_raw (t : UnixTimeStamp) : Nat := t.sec

/-! ## `file_attrs.rs`: the `FileAttrs` record -/

/-- The `FileAttrs` sparse record: a presence bitmap plus the raw fields
(fields are meaningful only when the matching flag is set). -/
structure FileAttrs where
  flags : FileAttrsFlags
  size : Nat
  uid : Nat
  gid : Nat
  st_mode : Nat
  atime : UnixTimeStamp
  mtime : UnixTimeStamp
deriving DecidableEq

/-- `FileAttrs::new()`, also the `Default`. -/
def FileAttrs.new : FileAttrs where
  flags := FileAttrsFlags.empty
  size := 0
  uid := 0
  gid := 0
  st_mode := 0
  atime := UnixTimeStamp.unix_epoch
  mtime := UnixTimeStamp.unix_epoch

/-- `FileAttrs::set_size`. -/
def FileAttrs.set_size (a : FileAttrs) (size : Nat) : FileAttrs :=
  { a with flags := { a.flags with size := true }, size := size }

/-- `FileAttrs::set_id`. -/
def FileAttrs.set_id (a : FileAttrs) (uid gid : Nat) : FileAttrs :=
  { a with flags := { a.flags with id := true }, uid := uid, gid := gid }

/-- `FileAttrs::set_permissions`: keeps the file-type subfield of `st_mode`
and replaces the rest with the permission bits. -/
def FileAttrs.set_permissions (a : FileAttrs) (p : Permissions) : FileAttrs :=
  { a with
    flags := { a.flags with permissions := true },
    st_mode := (a.st_mode &&& S_IFMT) ||| p.bits }

/-- `FileAttrs::set_time`. -/
def FileAttrs.set_time (a : FileAttrs) (t1 t2 : UnixTimeStamp) : FileAttrs :=
  { a with flags := { a.flags with time := true }, atime := t1, mtime := t2 }

/-- `FileAttrs::get_size`. -/
def FileAttrs.get_size (a : FileAttrs) : Option Nat :=
  if a.flags.size then some a.size else none

/-- `FileAttrs::get_id`. -/
def FileAttrs.get_id (a : FileAttrs) : Option (Nat × Nat) :=
  if a.flags.id then some (a.uid, a.gid) else none

/-- `FileAttrs::get_permissions`. -/
def FileAttrs.get_permissions (a : FileAttrs) : Option Permissions :=
  if a.flags.permissions then some (Permissions.from_bits_truncate a.st_mode)
  else none

/-- `FileAttrs::get_filetype`. The source unwraps
`FileType::from_u32(filetype)`; the outer `Option` layer records that call:
`none` means the `unwrap` panics (file-type subfield nonzero but invalid),
`some r` means the getter returns `r`. -/
def FileAttrs.get_filetype (a : FileAttrs) : Option (Option FileType) :=
  if a.flags.permissions then
    let filetype := a.st_mode &&& S_IFMT
    if filetype = 0 then some none
    else
      match FileType.from_u32 filetype with
      | some t => some (some t)
      | none => none
  else some none

/-- `FileAttrs::get_time`. -/
def FileAttrs.get_time (a : FileAttrs) : Option (UnixTimeStamp × UnixTimeStamp) :=
  if a.flags.time then some (a.atime, a.mtime) else none

/-- The custom `impl PartialEq for FileAttrs`: compares the five getters with
short-circuiting `&&` in source order. The outer `Option` layer propagates the
potential `get_filetype` panic: `none` means the comparison panics. -/
def FileAttrs.beq (a b : FileAttrs) : Option Bool :=
  if a.get_size != b.get_size then some false
  else if a.get_id != b.get_id then some false
  else if a.get_permissions != b.get_permissions then some false
  else
    match a.get_filetype, b.get_filetype with
    | some fa, some fb =>
        if fa != fb then some false
        else some (a.get_time == b.get_time)
    | _, _ => none

/-! ## `file_attrs.rs`: serialization and deserialization -/

/-- The `impl Serialize for FileAttrs`: the flags word, then in fixed order
exactly the fields whose getters report presence. Note the mode is emitted as
`get_permissions().bits()`, i.e. truncated to the twelve permission bits. -/
def FileAttrs.serialize (a : FileAttrs) : List Token :=
  Token.u32 a.flags.serializeWord ::
    ((match a.get_size with
      | some s => [Token.u64 s]
      | none => []) ++
     (match a.get_id with
      | some (u, g) => [Token.u32 u, Token.u32 g]
      | none => []) ++
     (match a.get_permissions with
      | some p => [Token.u32 p.bits]
      | none => []) ++
     (match a.get_time with
      | some (t1, t2) => [Token.u32 t1.into_raw, Token.u32 t2.into_raw]
      | none => []))

/-- The extension-pair loop of the `FileAttrs` visitor: reads `2 * n` byte
strings (`n` name/value pairs) and discards them. -/
def readExtensionPairs : Nat → List Token → Except DeError (List Token)
  | 0, toks => Except.ok toks
  | n + 1, toks => do
      let (_name, toks) ← readBytesTok toks
      let (_value, toks) ← readBytesTok toks
      readExtensionPairs n toks

/-- The size stage of the `FileAttrs` visitor: the first conditional block
(`if attrs.has_attr(SIZE)`). -/
def dsSizeStage (flags : FileAttrsFlags) (st : FileAttrs × List Token) :
    Except DeError (FileAttrs × List Token) :=
  if flags.size then do
    let (s, toks) ← readU64Tok st.2
    pure ({ st.1 with size := s }, toks)
  else pure st

/-- The uid/gid stage of the `FileAttrs` visitor
(`if attrs.has_attr(ID)`). -/
def dsIdStage (flags : FileAttrsFlags) (st : FileAttrs × List Token) :
    Except DeError (FileAttrs × List Token) :=
  if flags.id then do
    let (u, toks) ← readU32Tok st.2
    let (g, toks) ← readU32Tok toks
    pure ({ st.1 with uid := u, gid := g }, toks)
  else pure st

/-- The permissions stage of the `FileAttrs` visitor
(`if attrs.has_attr(PERMISSIONS)`): reads the mode and rejects a nonzero
file-type subfield that is not a valid `FileType`. -/
def dsPermsStage (flags : FileAttrsFlags) (st : FileAttrs × List Token) :
    Except DeError (FileAttrs × List Token) :=
  if flags.permissions then do
    let (m, toks) ← readU32Tok st.2
    let filetype := m &&& S_IFMT
    if filetype != 0 && (FileType.from_u32 filetype).isNone then
      throw (DeError.invalidValue filetype)
    else
      pure ({ st.1 with st_mode := m }, toks)
  else pure st

/-- The atime/mtime stage of the `FileAttrs` visitor
(`if attrs.has_attr(TIME)`), with the `into_timestamp` validations. -/
def dsTimeStage (flags : FileAttrsFlags) (st : FileAttrs × List Token) :
    Except DeError (FileAttrs × List Token) :=
  if flags.time then do
    let (e1, toks) ← readU32Tok st.2
    let t1 ← match UnixTimeStamp.from_raw e1 with
      | some t => pure t
      | none => throw (DeError.invalidValue e1)
    let (e2, toks) ← readU32Tok toks
    let t2 ← match UnixTimeStamp.from_raw e2 with
      | some t => pure t
      | none => throw (DeError.invalidValue e2)
    pure ({ st.1 with atime := t1, mtime := t2 }, toks)
  else pure st

/-- The extension-pairs stage of the `FileAttrs` visitor
(`if attrs.has_attr(EXTENSIONS)`): reads the pair count and consumes and
discards the pairs. -/
def dsExtStage (flags : FileAttrsFlags) (toks : List Token) :
    Except DeError (List Token) :=
  if flags.extensions then do
    let (n, toks) ← readU32Tok toks
    readExtensionPairs n toks
  else pure toks

/-- The `impl_visitor!(FileAttrs, ...)` deserializer: reads the flags word,
then runs the five conditional stages of the source in order (the fields the
flags demand, the file-type and timestamp validations, the consumption of
any extension pairs), and clears the `EXTENSIONS` flag on the returned
value. -/
def FileAttrs.deserialize (toks : List Token) :
    Except DeError (FileAttrs × List Token) := do
  let (w, toks) ← readU32Tok toks
  let flags := FileAttrsFlags.deserializeWord w
  let (a, toks) ← dsSizeStage flags ({ FileAttrs.new with flags := flags }, toks)
  let (a, toks) ← dsIdStage flags (a, toks)
  let (a, toks) ← dsPermsStage flags (a, toks)
  let (a, toks) ← dsTimeStage flags (a, toks)
  let toks ← dsExtStage flags toks
  pure ({ a with flags := { a.flags with extensions := false } }, toks)

/-! ## `response.rs`: status codes -/

def SSH_FX_OK : Nat := 0
def SSH_FX_EOF : Nat := 1
def SSH_FX_NO_SUCH_FILE : Nat := 2
def SSH_FX_PERMISSION_DENIED : Nat := 3
def SSH_FX_FAILURE : Nat := 4
def SSH_FX_BAD_MESSAGE : Nat := 5
def SSH_FX_NO_CONNECTION : Nat := 6
def SSH_FX_CONNECTION_LOST : Nat := 7
def SSH_FX_OP_UNSUPPORTED : Nat := 8

/-- The `ErrorCode` enum of `src/response.rs` (six variants; `Eof` is one of
them in this revision of the crate). -/
inductive ErrorCode where
  | eof
  | noSuchFile
  | permDenied
  | failure
  | badMessage
  | opUnsupported
deriving DecidableEq

/-- The `StatusCode` enum of `src/response.rs`: two variants, `Success` and
`Failure(ErrorCode)`. -/
inductive StatusCode where
  | success
  | failure (code : ErrorCode)
deriving DecidableEq

/-- The `impl Deserialize for StatusCode` match on the `u32` discriminant:
codes 0–5 and 8 map to values, the pseudo-errors 6 and 7 and every other
code are `invalid_value` errors. -/
def StatusCode.deserialize (d : Nat) : Except DeError StatusCode :=
  if d = SSH_FX_OK then Except.ok StatusCode.success
  else if d = SSH_FX_EOF then Except.ok (StatusCode.failure ErrorCode.eof)
  else if d = SSH_FX_NO_SUCH_FILE then
    Except.ok (StatusCode.failure ErrorCode.noSuchFile)
  else if d = SSH_FX_PERMISSION_DENIED then
    Except.ok (StatusCode.failure ErrorCode.permDenied)
  else if d = SSH_FX_FAILURE then
    Except.ok (StatusCode.failure ErrorCode.failure)
  else if d = SSH_FX_BAD_MESSAGE then
    Except.ok (StatusCode.failure ErrorCode.badMessage)
  else if d = SSH_FX_OP_UNSUPPORTED then
    Except.ok (StatusCode.failure ErrorCode.opUnsupported)
  else Except.error (DeError.invalidValue d)

/-! ## `request.rs`: opcodes and the request serializer -/

def SSH_FXP_INIT : Nat := 1
def SSH_FXP_VERSION : Nat := 2
def SSH_FXP_OPEN : Nat := 3
def SSH_FXP_CLOSE : Nat := 4
def SSH_FXP_READ : Nat := 5
def SSH_FXP_WRITE : Nat := 6
def SSH_FXP_LSTAT : Nat := 7
def SSH_FXP_FSTAT : Nat := 8
def SSH_FXP_SETSTAT : Nat := 9
def SSH_FXP_FSETSTAT : Nat := 10
def SSH_FXP_OPENDIR : Nat := 11
def SSH_FXP_READDIR : Nat := 12
def SSH_FXP_REMOVE : Nat := 13
def SSH_FXP_MKDIR : Nat := 14
def SSH_FXP_RMDIR : Nat := 15
def SSH_FXP_REALPATH : Nat := 16
def SSH_FXP_STAT : Nat := 17
def SSH_FXP_RENAME : Nat := 18
def SSH_FXP_READLINK : Nat := 19
def SSH_FXP_SYMLINK : Nat := 20
def SSH_FXP_STATUS : Nat := 101
def SSH_FXP_HANDLE : Nat := 102
def SSH_FXP_DATA : Nat := 103
def SSH_FXP_NAME : Nat := 104
def SSH_FXP_ATTRS : Nat := 105
def SSH_FXP_EXTENDED : Nat := 200
def SSH_FXP_EXTENDED_REPLY : Nat := 201

/-- Extension pair `"posix-rename@openssh.com"` revision 1 (UTF-8 bytes of the name). -/
def EXT_NAME_POSIX_RENAME : List Nat × Nat :=
  ([112, 111, 115, 105, 120, 45, 114, 101, 110, 97, 109, 101, 64, 111, 112, 101, 110, 115, 115, 104, 46, 99, 111, 109], 1)

/-- Extension pair `"statvfs@openssh.com"` revision 2 (UTF-8 bytes of the name). -/
def EXT_NAME_STATVFS : List Nat × Nat :=
  ([115, 116, 97, 116, 118, 102, 115, 64, 111, 112, 101, 110, 115, 115, 104, 46, 99, 111, 109], 2)

/-- Extension pair `"fstatvfs@openssh.com"` revision 2 (UTF-8 bytes of the name). -/
def EXT_NAME_FSTATVFS : List Nat × Nat :=
  ([102, 115, 116, 97, 116, 118, 102, 115, 64, 111, 112, 101, 110, 115, 115, 104, 46, 99, 111, 109], 2)

/-- Extension pair `"hardlink@openssh.com"` revision 1 (UTF-8 bytes of the name). -/
def EXT_NAME_HARDLINK : List Nat × Nat :=
  ([104, 97, 114, 100, 108, 105, 110, 107, 64, 111, 112, 101, 110, 115, 115, 104, 46, 99, 111, 109], 1)

/-- Extension pair `"fsync@openssh.com"` revision 1 (UTF-8 bytes of the name). -/
def EXT_NAME_FSYNC : List Nat × Nat :=
  ([102, 115, 121, 110, 99, 64, 111, 112, 101, 110, 115, 115, 104, 46, 99, 111, 109], 1)

/-- Extension pair `"lsetstat@openssh.com"` revision 1 (UTF-8 bytes of the name). -/
def EXT_NAME_LSETSTAT : List Nat × Nat :=
  ([108, 115, 101, 116, 115, 116, 97, 116, 64, 111, 112, 101, 110, 115, 115, 104, 46, 99, 111, 109], 1)

/-- Extension pair `"limits@openssh.com"` revision 1 (UTF-8 bytes of the name). -/
def EXT_NAME_LIMITS : List Nat × Nat :=
  ([108, 105, 109, 105, 116, 115, 64, 111, 112, 101, 110, 115, 115, 104, 46, 99, 111, 109], 1)

/-- Extension pair `"expand-path@openssh.com"` revision 1 (UTF-8 bytes of the name). -/
def EXT_NAME_EXPAND_PATH : List Nat × Nat :=
  ([101, 120, 112, 97, 110, 100, 45, 112, 97, 116, 104, 64, 111, 112, 101, 110, 115, 115, 104, 46, 99, 111, 109], 1)

/-- Extension pair `"copy-data"` revision 1 (UTF-8 bytes of the name). -/
def EXT_NAME_COPY_DATA : List Nat × Nat :=
  ([99, 111, 112, 121, 45, 100, 97, 116, 97], 1)

/-- The `OpenFileRequest` struct (derived `Serialize`: fields in order). -/
structure OpenFileRequest where
  filename : List Nat
  flags : Nat
  attrs : FileAttrs
deriving DecidableEq

/-- The `RequestInner` enum. Paths, handles and write payloads are byte
strings (`List Nat`). -/
inductive RequestInner where
  | open (params : OpenFileRequest)
  | close (handle : List Nat)
  | read (handle : List Nat) (offset : Nat) (len : Nat)
  | remove (filename : List Nat)
  | rename (oldpath newpath : List Nat)
  | mkdir (path : List Nat) (attrs : FileAttrs)
  | rmdir (path : List Nat)
  | opendir (path : List Nat)
  | readdir (handle : List Nat)
  | stat (path : List Nat)
  | lstat (path : List Nat)
  | fstat (handle : List Nat)
  | setstat (path : List Nat) (attrs : FileAttrs)
  | fsetstat (handle : List Nat) (attrs : FileAttrs)
  | readlink (path : List Nat)
  | symlink (linkpath targetpath : List Nat)
  | realpath (path : List Nat)
  | limits
  | expandPath (path : List Nat)
  | lsetstat (path : List Nat) (attrs : FileAttrs)
  | fsync (handle : List Nat)
  | hardLink (oldpath newpath : List Nat)
  | posixRename (oldpath newpath : List Nat)
  | cp (read_from_handle : List Nat) (read_from_offset : Nat)
      (read_data_length : Nat) (write_to_handle : List Nat)
      (write_to_offset : Nat)
  | write (handle : List Nat) (offset : Nat) (data : List Nat)
deriving DecidableEq

/-- The `Request` struct: a client-chosen id plus the request payload. -/
structure Request where
  request_id : Nat
  inner : RequestInner
deriving DecidableEq

/-- The `Hello` packet serializer: `(SSH_FXP_INIT, version)`. -/
def Hello.serialize (version : Nat) : List Token :=
  [Token.u8 SSH_FXP_INIT, Token.u32 version]

/-- The `impl Serialize for Request`: every arm serializes the tuple
`(opcode, request_id, payload fields...)` in source order. -/
def Request.serialize (r : Request) : List Token :=
  match r.inner with
  | RequestInner.open p =>
      Token.u8 SSH_FXP_OPEN :: Token.u32 r.request_id ::
        Token.bytes p.filename :: Token.u32 p.flags :: p.attrs.serialize
  | RequestInner.close handle =>
      [Token.u8 SSH_FXP_CLOSE, Token.u32 r.request_id, Token.bytes handle]
  | RequestInner.read handle offset len =>
      [Token.u8 SSH_FXP_READ, Token.u32 r.request_id, Token.bytes handle,
       Token.u64 offset, Token.u32 len]
  | RequestInner.remove filename =>
      [Token.u8 SSH_FXP_REMOVE, Token.u32 r.request_id, Token.bytes filename]
  | RequestInner.rename oldpath newpath =>
      [Token.u8 SSH_FXP_RENAME, Token.u32 r.request_id, Token.bytes oldpath,
       Token.bytes newpath]
  | RequestInner.mkdir path attrs =>
      Token.u8 SSH_FXP_MKDIR :: Token.u32 r.request_id ::
        Token.bytes path :: attrs.serialize
  | RequestInner.rmdir path =>
      [Token.u8 SSH_FXP_RMDIR, Token.u32 r.request_id, Token.bytes path]
  | RequestInner.opendir path =>
      [Token.u8 SSH_FXP_OPENDIR, Token.u32 r.request_id, Token.bytes path]
  | RequestInner.readdir handle =>
      [Token.u8 SSH_FXP_READDIR, Token.u32 r.request_id, Token.bytes handle]
  | RequestInner.stat path =>
      [Token.u8 SSH_FXP_STAT, Token.u32 r.request_id, Token.bytes path]
  | RequestInner.lstat path =>
      [Token.u8 SSH_FXP_LSTAT, Token.u32 r.request_id, Token.bytes path]
  | RequestInner.fstat handle =>
      [Token.u8 SSH_FXP_FSTAT, Token.u32 r.request_id, Token.bytes handle]
  | RequestInner.setstat path attrs =>
      Token.u8 SSH_FXP_SETSTAT :: Token.u32 r.request_id ::
        Token.bytes path :: attrs.serialize
  | RequestInner.fsetstat handle attrs =>
      Token.u8 SSH_FXP_FSETSTAT :: Token.u32 r.request_id ::
        Token.bytes handle :: attrs.serialize
  | RequestInner.readlink path =>
      [Token.u8 SSH_FXP_READLINK, Token.u32 r.request_id, Token.bytes path]
  | RequestInner.symlink linkpath targetpath =>
      [Token.u8 SSH_FXP_SYMLINK, Token.u32 r.request_id,
       Token.bytes targetpath, Token.bytes linkpath]
  | RequestInner.realpath path =>
      [Token.u8 SSH_FXP_REALPATH, Token.u32 r.request_id, Token.bytes path]
  | RequestInner.limits =>
      [Token.u8 SSH_FXP_EXTENDED, Token.u32 r.request_id,
       Token.bytes EXT_NAME_LIMITS.1]
  | RequestInner.expandPath path =>
      [Token.u8 SSH_FXP_EXTENDED, Token.u32 r.request_id,
       Token.bytes EXT_NAME_EXPAND_PATH.1, Token.bytes path]
  | RequestInner.lsetstat path attrs =>
      Token.u8 SSH_FXP_EXTENDED :: Token.u32 r.request_id ::
        Token.bytes EXT_NAME_LSETSTAT.1 :: Token.bytes path :: attrs.serialize
  | RequestInner.fsync handle =>
      [Token.u8 SSH_FXP_EXTENDED, Token.u32 r.request_id,
       Token.bytes EXT_NAME_FSYNC.1, Token.bytes handle]
  | RequestInner.hardLink oldpath newpath =>
      [Token.u8 SSH_FXP_EXTENDED, Token.u32 r.request_id,
       Token.bytes EXT_NAME_HARDLINK.1, Token.bytes oldpath,
       Token.bytes newpath]
  | RequestInner.posixRename oldpath newpath =>
      [Token.u8 SSH_FXP_EXTENDED, Token.u32 r.request_id,
       Token.bytes EXT_NAME_POSIX_RENAME.1, Token.bytes oldpath,
       Token.bytes newpath]
  | RequestInner.cp rh ro rl wh wo =>
      [Token.u8 SSH_FXP_EXTENDED, Token.u32 r.request_id,
       Token.bytes EXT_NAME_COPY_DATA.1, Token.bytes rh, Token.u64 ro,
       Token.u64 rl, Token.bytes wh, Token.u64 wo]
  | RequestInner.write handle offset data =>
      [Token.u8 SSH_FXP_WRITE, Token.u32 r.request_id, Token.bytes handle,
       Token.u64 offset, Token.bytes data]

/-! ## `extensions.rs`: the key/value extension list -/

/-- The `vec_strings::Strings` container, modelled as the sequence of strings
it stores (the crate only relies on `push`, `len` and emptiness). -/
structure Strings where
  strs : List String
deriving DecidableEq

/-- `Strings::push`. -/
def Strings.push (s : Strings) (x : String) : Strings :=
  ⟨s.strs ++ [x]⟩

/-- `Strings::len`: the number of stored strings. -/
def Strings.len (s : Strings) : Nat := s.strs.length

/-- `Strings::is_empty`. -/
def Strings.is_empty (s : Strings) : Bool := s.strs.isEmpty

/-- The `Extensions` newtype of `extensions.rs` wrapping a `Strings`
(name/value pairs stored flat, name then value). -/
structure Extensions where
  strings : Strings
deriving DecidableEq

/-- `Extensions::default()`: the empty list. -/
def Extensions.default : Extensions := ⟨⟨[]⟩⟩

/-- `Extensions::new`: accepts the `Strings` only when its string count is
even, returning `None` otherwise. -/
def Extensions.new (strs : Strings) : Option Extensions :=
  if strs.len % 2 = 0 then some ⟨strs⟩ else none

/-- `Extensions::add_extension`: pushes the name then the value. -/
def Extensions.add_extension (e : Extensions) (name data : String) :
    Extensions :=
  ⟨(e.strings.push name).push data⟩

/-- `Extensions::len`: the pair count, the string count divided by two. -/
def Extensions.len (e : Extensions) : Nat := e.strings.len / 2

/-- `Extensions::is_empty`. -/
def Extensions.is_empty (e : Extensions) : Bool := e.strings.is_empty

/-- The loop of the `Extensions` deserializer: `len` iterations, each calling
`add_extension` with the next two string elements. -/
def Extensions.deserializeLoop :
    Nat → Extensions → List Token → Except DeError (Extensions × List Token)
  | 0, e, toks => Except.ok (e, toks)
  | n + 1, e, toks => do
      let (name, toks) ← readStrTok toks
      let (data, toks) ← readStrTok toks
      Extensions.deserializeLoop n (e.add_extension name data) toks

/-- The `impl Deserialize for Extensions` visitor: reads the `u32` pair count
then that many (name, value) string pairs into a fresh default value. -/
def Extensions.deserialize (toks : List Token) :
    Except DeError (Extensions × List Token) := do
  let (len, toks) ← readU32Tok toks
  Extensions.deserializeLoop len Extensions.default toks

/-! ## `response.rs`: the server-version handshake (byte level)

`ServerVersion::deserialize` runs directly over the raw packet bytes with
`ssh_format::Deserializer::from_bytes`, so it is embedded at byte level:
bytes are `Nat` (each a `u8`), a `u32` is big-endian, and a byte string is a
`u32` length followed by that many bytes. -/

/-- Reading one byte (`u8::deserialize`). -/
def readU8 : List Nat → Option (Nat × List Nat)
  | b :: rest => some (b, rest)
  | [] => none

/-- Reading a big-endian `u32` (`u32::deserialize`). -/
def readU32be : List Nat → Option (Nat × List Nat)
  | b0 :: b1 :: b2 :: b3 :: rest =>
      some (((b0 * 256 + b1) * 256 + b2) * 256 + b3, rest)
  | _ => none

/-- Reading a length-prefixed byte string (`<&[u8]>::deserialize`): a `u32`
length, then that many bytes; fails when fewer bytes remain. -/
def readByteString (bs : List Nat) : Option (List Nat × List Nat) := do
  let (n, rest) ← readU32be bs
  if n ≤ rest.length then some (rest.take n, rest.drop n) else none

/-- A UTF-8 continuation byte (`0x80..=0xBF`). -/
def isUtf8Cont (b : Nat) : Bool := 0x80 ≤ b && b ≤ 0xBF

/-- `std::str::from_utf8` validity (RFC 3629: shortest forms only, no
surrogates, maximum `U+10FFFF`). -/
def utf8Valid : List Nat → Bool
  | [] => true
  | b :: rest =>
      if b ≤ 0x7F then utf8Valid rest
      else if b < 0xC2 then false
      else if b ≤ 0xDF then
        match rest with
        | c1 :: r => isUtf8Cont c1 && utf8Valid r
        | [] => false
      else if b ≤ 0xEF then
        match rest with
        | c1 :: c2 :: r =>
            (if b = 0xE0 then decide (0xA0 ≤ c1 ∧ c1 ≤ 0xBF)
             else if b = 0xED then decide (0x80 ≤ c1 ∧ c1 ≤ 0x9F)
             else isUtf8Cont c1) && isUtf8Cont c2 && utf8Valid r
        | _ => false
      else if b ≤ 0xF4 then
        match rest with
        | c1 :: c2 :: c3 :: r =>
            (if b = 0xF0 then decide (0x90 ≤ c1 ∧ c1 ≤ 0xBF)
             else if b = 0xF4 then decide (0x80 ≤ c1 ∧ c1 ≤ 0x8F)
             else isUtf8Cont c1) && isUtf8Cont c2 && isUtf8Cont c3 && utf8Valid r
        | _ => false
      else false

/-- Rust `str::parse::<u64>()` on the string's bytes: an optional leading
`+`, then one or more ASCII digits, failing on anything else and on values
that overflow a `u64`. (On a valid UTF-8 string the byte-level and the
character-level readings agree, since every non-ASCII character contains a
byte `≥ 0x80`, which is not a digit.) -/
def parseDecimalU64 (bs : List Nat) : Option Nat :=
  let ds := match bs with
    | 43 :: r => r
    | _ => bs
  if ds.isEmpty then none
  else if ds.all (fun b => 48 ≤ b && b ≤ 57) then
    let v := ds.foldl (fun a b => a * 10 + (b - 48)) 0
    if v < 2 ^ 64 then some v else none
  else none

/-- The `Extensions` struct of `response.rs`: the flags for the extensions
this revision of the crate recognizes during the handshake. -/
structure Response.Extensions where
  posix_rename : Bool
  statvfs : Bool
  fstatvfs : Bool
  hardlink : Bool
  fsync : Bool
  lsetstat : Bool
  limits : Bool
  expand_path : Bool
deriving DecidableEq

/-- The `Extensions::default()` of `response.rs`: every flag `false`. -/
def Response.Extensions.default : Response.Extensions :=
  ⟨false, false, false, false, false, false, false, false⟩

/-- One iteration body of the handshake loop after the two byte strings are
read: the `ok_or_continue!` UTF-8 and decimal parses (a failed parse skips
the pair), then the match of `(name, revision)` against the known
`EXT_NAME_*` pairs; unrecognized pairs fall to the `_ => ()` arm. String
equality on the parsed `&str`s is byte equality of the underlying slices. -/
def processExtensionPair (name rev : List Nat) (e : Response.Extensions) :
    Response.Extensions :=
  if !utf8Valid name then e
  else if !utf8Valid rev then e
  else
    match parseDecimalU64 rev with
    | none => e
    | some revision =>
        if (name, revision) = EXT_NAME_POSIX_RENAME then
          { e with posix_rename := true }
        else if (name, revision) = EXT_NAME_STATVFS then
          { e with statvfs := true }
        else if (name, revision) = EXT_NAME_FSTATVFS then
          { e with fstatvfs := true }
        else if (name, revision) = EXT_NAME_HARDLINK then
          { e with hardlink := true }
        else if (name, revision) = EXT_NAME_FSYNC then
          { e with fsync := true }
        else if (name, revision) = EXT_NAME_LSETSTAT then
          { e with lsetstat := true }
        else if (name, revision) = EXT_NAME_LIMITS then
          { e with limits := true }
        else if (name, revision) = EXT_NAME_EXPAND_PATH then
          { e with expand_path := true }
        else e

/-- The `while !de.into_inner().is_empty()` loop of
`ServerVersion::deserialize`: reads both byte strings of a pair before
parsing them, processes the pair and continues. `fuel` is an upper bound on
the iterations; each iteration strictly shrinks the buffer, so any
`fuel ≥ bs.length` computes the loop exactly (see `extLoop_fuel_irrel`). -/
def extLoop : Nat → List Nat → Response.Extensions → Except DeError Response.Extensions
  | _, [], e => Except.ok e
  | 0, _ :: _, _ => Except.error DeError.invalidLength
  | fuel + 1, b :: bs, e =>
      match readByteString (b :: bs) with
      | none => Except.error DeError.invalidLength
      | some (name, bs1) =>
          match readByteString bs1 with
          | none => Except.error DeError.invalidLength
          | some (rev, bs2) => extLoop fuel bs2 (processExtensionPair name rev e)

/-- The `ServerVersion` struct. -/
structure ServerVersion where
  version : Nat
  extensions : Response.Extensions
deriving DecidableEq

/-- `ServerVersion::deserialize`: checks the `SSH_FXP_VERSION` opcode, reads
the protocol version, then folds the extension-announcement loop over the
rest of the packet. -/
def ServerVersion.deserialize (bytes : List Nat) : Except DeError ServerVersion :=
  match readU8 bytes with
  | none => Except.error DeError.invalidLength
  | some (packet_type, bs) =>
      if packet_type ≠ SSH_FXP_VERSION then Except.error DeError.custom
      else
        match readU32be bs with
        | none => Except.error DeError.invalidLength
        | some (version, bs) =>
            match extLoop bs.length bs Response.Extensions.default with
            | Except.ok e => Except.ok ⟨version, e⟩
            | Except.error err => Except.error err

/-- Big-endian `u32` encoding (the `ssh_format` wire form); builds the
theorem inputs. -/
def encodeU32be (n : Nat) : List Nat :=
  [n / 2 ^ 24 % 256, n / 2 ^ 16 % 256, n / 2 ^ 8 % 256, n % 256]

/-- Length-prefixed byte-string encoding; builds the theorem inputs. -/
def encodeByteString (s : List Nat) : List Nat :=
  encodeU32be s.length ++ s

deriving instance DecidableEq for Except

/-! ## Reachability predicates

Values obtainable through the public constructors of `extensions.rs` and of
`file_attrs.rs` (construction, setters, and deserialization). -/

/-- `Extensions` values reachable through the public API of `extensions.rs`:
`Default`, an accepted `Extensions::new`, `add_extension`, and the
deserializer. -/
inductive Extensions.Reachable : Extensions → Prop where
  | is_default : Extensions.Reachable Extensions.default
  | of_new (strs : Strings) (e : Extensions) :
      Extensions.new strs = some e → Extensions.Reachable e
  | of_add (e : Extensions) (name data : String) :
      Extensions.Reachable e → Extensions.Reachable (e.add_extension name data)
  | of_deserialize (toks rest : List Token) (e : Extensions) :
      Extensions.deserialize toks = Except.ok (e, rest) →
      Extensions.Reachable e

/-- The deserializer loop performs exactly `n` `add_extension` calls: the
string count of the result is the starting count plus `2 * n`. -/
theorem Extensions.deserializeLoop_len :
    ∀ (n : Nat) (e : Extensions) (toks : List Token) (e2 : Extensions)
      (rest : List Token),
      Extensions.deserializeLoop n e toks = Except.ok (e2, rest) →
      e2.strings.len = e.strings.len + 2 * n := by
  intro n
  induction n with
  | zero =>
      intro e toks e2 rest h
      simp only [Extensions.deserializeLoop] at h
      cases h
      rfl
  | succ m ih =>
      intro e toks e2 rest h
      simp only [Extensions.deserializeLoop, bind, Except.bind] at h
      cases h1 : readStrTok toks with
      | error err => rw [h1] at h; cases h
      | ok p1 =>
          obtain ⟨name, toks1⟩ := p1
          rw [h1] at h
          dsimp only at h
          cases h2 : readStrTok toks1 with
          | error err => rw [h2] at h; cases h
          | ok p2 =>
              obtain ⟨data, toks2⟩ := p2
              rw [h2] at h
              dsimp only at h
              have := ih (e.add_extension name data) toks2 e2 rest h
              simp only [Extensions.add_extension, Strings.push, Strings.len,
                List.length_append, List.length_cons, List.length_nil] at this ⊢
              omega

/-- Every reachable `Extensions` value has an even string count. -/
theorem Extensions.Reachable.even_len {e : Extensions}
    (h : Extensions.Reachable e) : e.strings.len % 2 = 0 := by
  induction h with
  | is_default => rfl
  | of_new strs e hn =>
      simp only [Extensions.new] at hn
      split at hn
      · cases hn
        assumption
      · cases hn
  | of_add e name data _ ih =>
      simp only [Extensions.add_extension, Strings.push, Strings.len,
        List.length_append, List.length_cons, List.length_nil] at ih ⊢
      omega
  | of_deserialize toks rest e hd =>
      simp only [Extensions.deserialize, bind, Except.bind] at hd
      cases h1 : readU32Tok toks with
      | error err => rw [h1] at hd; cases hd
      | ok p =>
          rw [h1] at hd
          dsimp only at hd
          have := Extensions.deserializeLoop_len p.1 Extensions.default p.2
            e rest hd
          simp only [Extensions.default, Strings.len, List.length_nil] at this
          simp only [Strings.len]
          omega

/-- **C9.** Counts through the public `Extensions` API: `new` accepts exactly
the even-count inputs, `add_extension` appends exactly two strings, every
reachable value keeps the total string count even, and `len()` is that count
divided by two. -/
theorem extensions_even_invariant (s : Strings) (e : Extensions)
    (h : Extensions.Reachable e) (name data : String) :
    ((Extensions.new s).isSome ↔ s.len % 2 = 0)
    ∧ (e.add_extension name data).strings.len = e.strings.len + 2
    ∧ e.strings.len % 2 = 0
    ∧ e.len = e.strings.len / 2 := by
  refine ⟨?_, ?_, h.even_len, rfl⟩
  · simp only [Extensions.new]
    split <;> rename_i hs <;> simp [hs]
  · simp only [Extensions.add_extension, Strings.push, Strings.len,
      List.length_append, List.length_cons, List.length_nil]

/-- **C9 witness.** The invariant theorem applied to a concrete odd-count
`new` input and the reachable value `default.add_extension "a" "b"`. -/
theorem extensions_even_invariant_witness :
    ((Extensions.new ⟨["x", "y", "z"]⟩).isSome ↔
        Strings.len ⟨["x", "y", "z"]⟩ % 2 = 0)
    ∧ ((Extensions.default.add_extension "a" "b").add_extension "c"
        "d").strings.len =
        (Extensions.default.add_extension "a" "b").strings.len + 2
    ∧ (Extensions.default.add_extension "a" "b").strings.len % 2 = 0
    ∧ (Extensions.default.add_extension "a" "b").len =
        (Extensions.default.add_extension "a" "b").strings.len / 2 :=
  extensions_even_invariant ⟨["x", "y", "z"]⟩
    (Extensions.default.add_extension "a" "b")
    (Extensions.Reachable.of_add _ "a" "b" Extensions.Reachable.is_default)
    "c" "d"

/-- **C7.** Decoding a status code outside `{0, 1, 2, 3, 4, 5, 8}` (notably
the pseudo-errors 6 `SSH_FX_NO_CONNECTION` and 7 `SSH_FX_CONNECTION_LOST`)
fails with a structural `invalid_value` error instead of producing a
`StatusCode` value. -/
theorem statusCode_invalid_is_error (c : Nat)
    (h : c ≠ 0 ∧ c ≠ 1 ∧ c ≠ 2 ∧ c ≠ 3 ∧ c ≠ 4 ∧ c ≠ 5 ∧ c ≠ 8) :
    StatusCode.deserialize c = Except.error (DeError.invalidValue c) := by
  obtain ⟨h0, h1, h2, h3, h4, h5, h8⟩ := h
  simp [StatusCode.deserialize, SSH_FX_OK, SSH_FX_EOF, SSH_FX_NO_SUCH_FILE,
    SSH_FX_PERMISSION_DENIED, SSH_FX_FAILURE, SSH_FX_BAD_MESSAGE,
    SSH_FX_OP_UNSUPPORTED, h0, h1, h2, h3, h4, h5, h8]

/-- **C7 witness.** The pseudo-error 6 (`SSH_FX_NO_CONNECTION`) is rejected. -/
theorem statusCode_invalid_is_error_witness :
    StatusCode.deserialize 6 = Except.error (DeError.invalidValue 6) :=
  statusCode_invalid_is_error 6 (by decide)

/-- **C8.** Serializing a `Symlink` request emits, after the opcode byte 20
and the `u32` request id, the `targetpath` first and the `linkpath` second. -/
theorem symlink_serializes_target_then_link (request_id : Nat)
    (linkpath targetpath : List Nat) :
    Request.serialize ⟨request_id, RequestInner.symlink linkpath targetpath⟩ =
      [Token.u8 20, Token.u32 request_id, Token.bytes targetpath,
       Token.bytes linkpath] := rfl

/-- **C3 counterexample.** Decoding wire code 1 (`SSH_FX_EOF`) yields
`Failure(Eof)` — a `StatusCode::Failure(ErrorCode)` value, with `Eof` a
variant of the six-value `ErrorCode` enum — not a third top-level result
distinct from every `Failure(ErrorCode)` value as the claim states. -/
theorem statusCode_eof_is_failure_variant :
    StatusCode.deserialize 1 = Except.ok (StatusCode.failure ErrorCode.eof) := by
  decide

/-- **C3 amended.** The decoded status taxonomy of this crate revision:
`Success | Failure(ErrorCode)` with `ErrorCode` ranging over exactly
`{Eof, NoSuchFile, PermDenied, Failure, BadMessage, OpUnsupported}`. Wire
code 1 decodes to `Failure(Eof)`, and the seven decodable results are
pairwise distinct (in particular `Failure(Eof)` differs from `Success` and
from every other `Failure` value). -/
theorem statusCode_taxonomy :
    StatusCode.deserialize 0 = Except.ok StatusCode.success
    ∧ StatusCode.deserialize 1 = Except.ok (StatusCode.failure ErrorCode.eof)
    ∧ StatusCode.deserialize 2 =
        Except.ok (StatusCode.failure ErrorCode.noSuchFile)
    ∧ StatusCode.deserialize 3 =
        Except.ok (StatusCode.failure ErrorCode.permDenied)
    ∧ StatusCode.deserialize 4 =
        Except.ok (StatusCode.failure ErrorCode.failure)
    ∧ StatusCode.deserialize 5 =
        Except.ok (StatusCode.failure ErrorCode.badMessage)
    ∧ StatusCode.deserialize 8 =
        Except.ok (StatusCode.failure ErrorCode.opUnsupported)
    ∧ (∀ e : ErrorCode,
        e = ErrorCode.eof ∨ e = ErrorCode.noSuchFile
        ∨ e = ErrorCode.permDenied ∨ e = ErrorCode.failure
        ∨ e = ErrorCode.badMessage ∨ e = ErrorCode.opUnsupported)
    ∧ List.Pairwise (· ≠ ·)
        [StatusCode.success, StatusCode.failure ErrorCode.eof,
         StatusCode.failure ErrorCode.noSuchFile,
         StatusCode.failure ErrorCode.permDenied,
         StatusCode.failure ErrorCode.failure,
         StatusCode.failure ErrorCode.badMessage,
         StatusCode.failure ErrorCode.opUnsupported] := by
  refine ⟨by decide, by decide, by decide, by decide, by decide, by decide,
    by decide, ?_, by decide⟩
  intro e
  cases e <;> simp

/-! ## `FileAttrs` round-trip -/

/-- Masking with the permission bits clears the file-type subfield. -/
theorem truncated_mode_filetype (m : Nat) :
    (m &&& PERMISSIONS_MASK) &&& S_IFMT = 0 := by
  rw [PERMISSIONS_MASK, S_IFMT, Nat.and_assoc]
  norm_num [show (0o7777 &&& 0o170000 : Nat) = 0 from rfl]

/-- Masking with the permission bits twice is masking once. -/
theorem truncated_mode_idem (m : Nat) :
    (m &&& PERMISSIONS_MASK) &&& PERMISSIONS_MASK = m &&& PERMISSIONS_MASK := by
  rw [PERMISSIONS_MASK, Nat.and_assoc, show (0o7777 &&& 0o7777 : Nat) = 0o7777 from rfl]

/-- Decoding the serialized flags word recovers the flags, except that the
`EXTENSIONS` flag comes back cleared (the serializer never emits its bit). -/
theorem FileAttrsFlags.deserializeWord_serializeWord (f : FileAttrsFlags) :
    FileAttrsFlags.deserializeWord f.serializeWord =
      { f with extensions := false } := by
  obtain ⟨s, i, p, t, x⟩ := f
  cases s <;> cases i <;> cases p <;> cases t <;> cases x <;> rfl

/-- Decoding an encoded `FileAttrs` always succeeds and consumes the whole
stream; the decoded value keeps the present fields except that the mode comes
back truncated to the twelve permission bits (the serializer emits
`get_permissions().bits()`) and the `EXTENSIONS` flag comes back cleared. -/
theorem FileAttrs.deserialize_serialize (a : FileAttrs) :
    FileAttrs.deserialize a.serialize = Except.ok
      ({ flags := { size := a.flags.size, id := a.flags.id,
                    permissions := a.flags.permissions, time := a.flags.time,
                    extensions := false },
         size := if a.flags.size then a.size else 0,
         uid := if a.flags.id then a.uid else 0,
         gid := if a.flags.id then a.gid else 0,
         st_mode := if a.flags.permissions then a.st_mode &&& PERMISSIONS_MASK
           else 0,
         atime := if a.flags.time then a.atime else UnixTimeStamp.unix_epoch,
         mtime := if a.flags.time then a.mtime else UnixTimeStamp.unix_epoch },
        []) := by
  obtain ⟨⟨s, i, p, t, x⟩, size, uid, gid, mode, atv, mtv⟩ := a
  have hflags := FileAttrsFlags.deserializeWord_serializeWord ⟨s, i, p, t, x⟩
  cases s <;> cases i <;> cases p <;> cases t <;>
    simp_all [FileAttrs.serialize, FileAttrs.deserialize, dsSizeStage,
      dsIdStage, dsPermsStage, dsTimeStage, dsExtStage, FileAttrs.get_size,
      FileAttrs.get_id, FileAttrs.get_permissions, FileAttrs.get_time,
      Permissions.from_bits_truncate, UnixTimeStamp.from_raw,
      UnixTimeStamp.into_raw, readU32Tok, readU64Tok, FileAttrs.new,
      FileAttrsFlags.empty, truncated_mode_filetype, bind, Except.bind, pure,
      Except.pure]

/-- **C1 counterexample.** A decoder-produced `FileAttrs` whose mode carries
the `RegularFile` file-type subfield (wire flags `PERMISSIONS`, mode
`0o100644`): re-encoding drops the file-type bits (the serializer emits only
the permission bits), so decode-of-encode compares unequal to the original
under the crate's `PartialEq` (`get_filetype` differs: `None` vs
`Some(RegularFile)`). -/
theorem fileAttrs_roundtrip_not_eq :
    FileAttrs.deserialize [Token.u32 4, Token.u32 33188] =
      Except.ok
        ({ flags := ⟨false, false, true, false, false⟩, size := 0, uid := 0,
           gid := 0, st_mode := 33188, atime := ⟨0⟩, mtime := ⟨0⟩ }, [])
    ∧ FileAttrs.deserialize
        (FileAttrs.serialize
          { flags := ⟨false, false, true, false, false⟩, size := 0, uid := 0,
            gid := 0, st_mode := 33188, atime := ⟨0⟩, mtime := ⟨0⟩ }) =
      Except.ok
        ({ flags := ⟨false, false, true, false, false⟩, size := 0, uid := 0,
           gid := 0, st_mode := 420, atime := ⟨0⟩, mtime := ⟨0⟩ }, [])
    ∧ FileAttrs.beq
        { flags := ⟨false, false, true, false, false⟩, size := 0, uid := 0,
          gid := 0, st_mode := 33188, atime := ⟨0⟩, mtime := ⟨0⟩ }
        { flags := ⟨false, false, true, false, false⟩, size := 0, uid := 0,
          gid := 0, st_mode := 420, atime := ⟨0⟩, mtime := ⟨0⟩ } =
      some false := by
  decide

/-- **C1 amended.** Decode-of-encode equals the original under the crate's
`FileAttrs` equality for every value whose mode file-type subfield is zero
(or whose `PERMISSIONS` flag is unset). Mode bits outside the twelve
permission bits other than the file-type subfield are dropped by the encoder
but are invisible to the equality, so only a nonzero file-type subfield
breaks the round-trip. -/
theorem fileAttrs_roundtrip_eq (a : FileAttrs)
    (h : a.flags.permissions = false ∨ a.st_mode &&& S_IFMT = 0) :
    ∃ b, FileAttrs.deserialize a.serialize = Except.ok (b, [])
      ∧ a.beq b = some true := by
  refine ⟨_, FileAttrs.deserialize_serialize a, ?_⟩
  obtain ⟨⟨s, i, p, t, x⟩, size, uid, gid, mode, atv, mtv⟩ := a
  cases p with
  | false =>
      cases s <;> cases i <;> cases t <;>
        simp_all [FileAttrs.beq, FileAttrs.get_size, FileAttrs.get_id,
          FileAttrs.get_permissions, FileAttrs.get_filetype, FileAttrs.get_time]
  | true =>
      have hft : mode &&& S_IFMT = 0 := by simpa using h
      cases s <;> cases i <;> cases t <;>
        simp_all [FileAttrs.beq, FileAttrs.get_size, FileAttrs.get_id,
          FileAttrs.get_permissions, FileAttrs.get_filetype, FileAttrs.get_time,
          Permissions.from_bits_truncate, truncated_mode_filetype,
          truncated_mode_idem]

/-- **C1 witness.** The amended round-trip at a concrete value: size, ids,
`rw-r--r--` permissions (file-type subfield zero) and timestamps set. -/
theorem fileAttrs_roundtrip_eq_witness :
    ∃ b,
      FileAttrs.deserialize
          (FileAttrs.serialize
            { flags := ⟨true, true, true, true, false⟩, size := 2333,
              uid := 5, gid := 6, st_mode := 420, atime := ⟨2⟩,
              mtime := ⟨150⟩ }) = Except.ok (b, [])
      ∧ FileAttrs.beq
          { flags := ⟨true, true, true, true, false⟩, size := 2333, uid := 5,
            gid := 6, st_mode := 420, atime := ⟨2⟩, mtime := ⟨150⟩ } b =
        some true :=
  fileAttrs_roundtrip_eq
    { flags := ⟨true, true, true, true, false⟩, size := 2333, uid := 5,
      gid := 6, st_mode := 420, atime := ⟨2⟩, mtime := ⟨150⟩ }
    (Or.inr (by decide))

/-- **C2 counterexample.** A `FileAttrs` whose mode carries the unknown bit
`2^16` (outside the twelve permission bits and outside the file-type mask):
serializing and reparsing returns mode `0o644` — the unknown bit is cleared,
not preserved. -/
theorem fileAttrs_unknown_bits_dropped :
    FileAttrs.deserialize
        (FileAttrs.serialize
          { flags := ⟨false, false, true, false, false⟩, size := 0, uid := 0,
            gid := 0, st_mode := 65956, atime := ⟨0⟩, mtime := ⟨0⟩ }) =
      Except.ok
        ({ flags := ⟨false, false, true, false, false⟩, size := 0, uid := 0,
           gid := 0, st_mode := 420, atime := ⟨0⟩, mtime := ⟨0⟩ }, [])
    ∧ 65956 &&& 65536 ≠ 0 ∧ 420 &&& 65536 = 0 := by
  decide

/-- **C2 amended.** For every `FileAttrs` with the `PERMISSIONS` flag set,
serializing and reparsing yields a mode equal to the original mode masked to
the twelve POSIX permission bits: bits outside that mask (unknown bits and
the file-type subfield alike) are cleared by the encoder, which emits
`get_permissions().bits()` = `from_bits_truncate(st_mode).bits()`. -/
theorem fileAttrs_mode_truncated (a : FileAttrs)
    (h : a.flags.permissions = true) :
    ∃ b, FileAttrs.deserialize a.serialize = Except.ok (b, [])
      ∧ b.st_mode = a.st_mode &&& PERMISSIONS_MASK := by
  refine ⟨_, FileAttrs.deserialize_serialize a, ?_⟩
  simp [h]

/-- **C2 witness.** The amended statement at the concrete mode `0o644 + 2^16`. -/
theorem fileAttrs_mode_truncated_witness :
    ∃ b,
      FileAttrs.deserialize
          (FileAttrs.serialize
            { flags := ⟨false, false, true, false, false⟩, size := 0, uid := 0,
              gid := 0, st_mode := 65956, atime := ⟨0⟩, mtime := ⟨0⟩ }) =
        Except.ok (b, [])
      ∧ b.st_mode = 65956 &&& PERMISSIONS_MASK :=
  fileAttrs_mode_truncated
    { flags := ⟨false, false, true, false, false⟩, size := 0, uid := 0,
      gid := 0, st_mode := 65956, atime := ⟨0⟩, mtime := ⟨0⟩ } rfl

/-- Field tokens demanded by the flags word `w`, in wire order (size, uid and
gid, mode, atime and mtime); builds the C5 theorem input. -/
def fileAttrsFieldTokens (w size uid gid mode atv mtv : Nat) : List Token :=
  (if w &&& SSH_FILEXFER_ATTR_SIZE != 0 then [Token.u64 size] else []) ++
  (if w &&& SSH_FILEXFER_ATTR_UIDGID != 0 then [Token.u32 uid, Token.u32 gid]
   else []) ++
  (if w &&& SSH_FILEXFER_ATTR_PERMISSIONS != 0 then [Token.u32 mode] else []) ++
  (if w &&& SSH_FILEXFER_ATTR_ACMODTIME != 0 then [Token.u32 atv, Token.u32 mtv]
   else [])

/-- Token form of a list of (name, value) extension pairs: two byte strings
per pair. -/
def extensionPairTokens (pairs : List (List Nat × List Nat)) : List Token :=
  pairs.flatMap (fun pr => [Token.bytes pr.1, Token.bytes pr.2])

/-- The pair-consumption loop reads back exactly the `2 * N` byte strings of
`N` encoded pairs and leaves the rest of the stream untouched. -/
theorem readExtensionPairs_extensionPairTokens
    (pairs : List (List Nat × List Nat)) (rest : List Token) :
    readExtensionPairs pairs.length (extensionPairTokens pairs ++ rest) =
      Except.ok rest := by
  induction pairs with
  | nil => rfl
  | cons pr ps ih =>
      simp [extensionPairTokens, readExtensionPairs, readBytesTok, bind,
        Except.bind]
      simpa [extensionPairTokens] using ih

/-- **C5.** Decoding a `FileAttrs` wire encoding whose flags word has the
`EXTENDED` bit set and that carries a count `N` followed by `N` (name, value)
byte-string pairs: decoding succeeds, consumes exactly the `2 * N` byte
strings after the count (the remainder is exactly `rest`), discards the pairs
(the result does not depend on them), and returns a value with the
`EXTENDED` flag cleared. -/
theorem fileAttrs_extended_consumed (w size uid gid mode atv mtv : Nat)
    (pairs : List (List Nat × List Nat)) (rest : List Token)
    (hext : w &&& SSH_FILEXFER_ATTR_EXTENDED ≠ 0)
    (hmode : (mode &&& S_IFMT != 0
        && (FileType.from_u32 (mode &&& S_IFMT)).isNone) = false) :
    FileAttrs.deserialize
        (Token.u32 w :: fileAttrsFieldTokens w size uid gid mode atv mtv ++
          Token.u32 pairs.length :: extensionPairTokens pairs ++ rest) =
      Except.ok
        ({ flags := { FileAttrsFlags.deserializeWord w with extensions := false },
           size := if w &&& SSH_FILEXFER_ATTR_SIZE != 0 then size else 0,
           uid := if w &&& SSH_FILEXFER_ATTR_UIDGID != 0 then uid else 0,
           gid := if w &&& SSH_FILEXFER_ATTR_UIDGID != 0 then gid else 0,
           st_mode := if w &&& SSH_FILEXFER_ATTR_PERMISSIONS != 0 then mode
             else 0,
           atime := if w &&& SSH_FILEXFER_ATTR_ACMODTIME != 0 then ⟨atv⟩
             else UnixTimeStamp.unix_epoch,
           mtime := if w &&& SSH_FILEXFER_ATTR_ACMODTIME != 0 then ⟨mtv⟩
             else UnixTimeStamp.unix_epoch }, rest) := by
  have hx : (w &&& SSH_FILEXFER_ATTR_EXTENDED != 0) = true := by simpa using hext
  cases hs : (w &&& SSH_FILEXFER_ATTR_SIZE != 0) <;>
    cases hi : (w &&& SSH_FILEXFER_ATTR_UIDGID != 0) <;>
      cases hp : (w &&& SSH_FILEXFER_ATTR_PERMISSIONS != 0) <;>
        cases ht : (w &&& SSH_FILEXFER_ATTR_ACMODTIME != 0) <;>
          simp [FileAttrs.deserialize, dsSizeStage, dsIdStage, dsPermsStage,
            dsTimeStage, dsExtStage, fileAttrsFieldTokens,
            FileAttrsFlags.deserializeWord, hx, hs, hi, hp, ht, hmode,
            readU32Tok, readU64Tok, FileAttrs.new, FileAttrsFlags.empty,
            UnixTimeStamp.from_raw, readExtensionPairs_extensionPairTokens,
            bind, Except.bind, pure, Except.pure]

/-- **C5 witness.** The consumption theorem at a concrete packet: flags word
`0x80000000` (only `EXTENDED`), one pair, and a trailing token that must
survive untouched. -/
theorem fileAttrs_extended_consumed_witness :
    FileAttrs.deserialize
        (Token.u32 0x80000000 ::
          fileAttrsFieldTokens 0x80000000 0 0 0 0 0 0 ++
          Token.u32 [([1], [2])].length ::
          extensionPairTokens [([1], [2])] ++ [Token.u8 9]) =
      Except.ok
        ({ flags := { FileAttrsFlags.deserializeWord 0x80000000 with
             extensions := false },
           size := if (0x80000000 : Nat) &&& SSH_FILEXFER_ATTR_SIZE != 0
             then 0 else 0,
           uid := if (0x80000000 : Nat) &&& SSH_FILEXFER_ATTR_UIDGID != 0
             then 0 else 0,
           gid := if (0x80000000 : Nat) &&& SSH_FILEXFER_ATTR_UIDGID != 0
             then 0 else 0,
           st_mode := if (0x80000000 : Nat) &&& SSH_FILEXFER_ATTR_PERMISSIONS
               != 0 then 0 else 0,
           atime := if (0x80000000 : Nat) &&& SSH_FILEXFER_ATTR_ACMODTIME != 0
             then ⟨0⟩ else UnixTimeStamp.unix_epoch,
           mtime := if (0x80000000 : Nat) &&& SSH_FILEXFER_ATTR_ACMODTIME != 0
             then ⟨0⟩ else UnixTimeStamp.unix_epoch }, [Token.u8 9]) :=
  fileAttrs_extended_consumed 0x80000000 0 0 0 0 0 0 [([1], [2])]
    [Token.u8 9] (by decide) (by decide)

/-- A mode whose file-type subfield is zero or one of the seven valid
`FileType` discriminants. -/
def FileAttrs.modeValid (a : FileAttrs) : Prop :=
  a.st_mode &&& S_IFMT = 0 ∨ (FileType.from_u32 (a.st_mode &&& S_IFMT)).isSome

/-- The size stage leaves the mode untouched. -/
theorem dsSizeStage_st_mode (flags : FileAttrsFlags) (st : FileAttrs × List Token)
    (b : FileAttrs) (t2 : List Token)
    (h : dsSizeStage flags st = Except.ok (b, t2)) : b.st_mode = st.1.st_mode := by
  unfold dsSizeStage at h
  split at h
  · simp only [bind, Except.bind, pure, Except.pure] at h
    split at h
    · cases h
    · cases h
      rfl
  · simp only [pure, Except.pure] at h
    cases h
    rfl

/-- The uid/gid stage leaves the mode untouched. -/
theorem dsIdStage_st_mode (flags : FileAttrsFlags) (st : FileAttrs × List Token)
    (b : FileAttrs) (t2 : List Token)
    (h : dsIdStage flags st = Except.ok (b, t2)) : b.st_mode = st.1.st_mode := by
  unfold dsIdStage at h
  split at h
  · simp only [bind, Except.bind, pure, Except.pure] at h
    split at h
    · cases h
    · split at h
      · cases h
      · cases h
        rfl
  · simp only [pure, Except.pure] at h
    cases h
    rfl

/-- The permissions stage yields a valid mode: either it is skipped (the
mode is unchanged) or the file-type check passed. -/
theorem dsPermsStage_modeValid (flags : FileAttrsFlags)
    (st : FileAttrs × List Token) (b : FileAttrs) (t2 : List Token)
    (hv : st.1.modeValid) (h : dsPermsStage flags st = Except.ok (b, t2)) :
    b.modeValid := by
  unfold dsPermsStage at h
  split at h
  · simp only [bind, Except.bind] at h
    cases hr : readU32Tok st.2 with
    | error err => rw [hr] at h; cases h
    | ok v =>
        rw [hr] at h
        dsimp only at h
        split at h
        · simp only [throw, throwThe, MonadExceptOf.throw] at h
          cases h
        · rename_i hchk
          simp only [pure, Except.pure] at h
          cases h
          simp only [Bool.and_eq_true, bne_iff_ne, ne_eq, not_and,
            Bool.not_eq_true, Option.isNone_eq_false_iff] at hchk
          by_cases hz : v.1 &&& S_IFMT = 0
          · exact Or.inl hz
          · exact Or.inr (hchk hz)
  · simp only [pure, Except.pure] at h
    cases h
    exact hv

/-- The time stage leaves the mode untouched. -/
theorem dsTimeStage_st_mode (flags : FileAttrsFlags) (st : FileAttrs × List Token)
    (b : FileAttrs) (t2 : List Token)
    (h : dsTimeStage flags st = Except.ok (b, t2)) : b.st_mode = st.1.st_mode := by
  unfold dsTimeStage at h
  split at h
  · simp only [bind, Except.bind, pure, Except.pure, UnixTimeStamp.from_raw] at h
    split at h
    · cases h
    · split at h
      · cases h
      · cases h
        rfl
  · simp only [pure, Except.pure] at h
    cases h
    rfl

/-- Any decoded `FileAttrs` has a valid mode: the visitor rejects a nonzero
file-type subfield that is not one of the seven `FileType` values. -/
theorem FileAttrs.deserialize_modeValid (toks : List Token) (a : FileAttrs)
    (rest : List Token) (h : FileAttrs.deserialize toks = Except.ok (a, rest)) :
    a.modeValid := by
  simp only [FileAttrs.deserialize, bind, Except.bind, pure, Except.pure] at h
  cases h0 : readU32Tok toks with
  | error err => rw [h0] at h; cases h
  | ok p =>
      rw [h0] at h
      dsimp only at h
      cases h1 : dsSizeStage (FileAttrsFlags.deserializeWord p.1)
          ({ FileAttrs.new with flags := FileAttrsFlags.deserializeWord p.1 },
            p.2) with
      | error err => rw [h1] at h; cases h
      | ok q1 =>
          rw [h1] at h
          dsimp only at h
          cases h2 : dsIdStage (FileAttrsFlags.deserializeWord p.1) (q1.1, q1.2) with
          | error err => rw [h2] at h; cases h
          | ok q2 =>
              rw [h2] at h
              dsimp only at h
              cases h3 : dsPermsStage (FileAttrsFlags.deserializeWord p.1)
                  (q2.1, q2.2) with
              | error err => rw [h3] at h; cases h
              | ok q3 =>
                  rw [h3] at h
                  dsimp only at h
                  cases h4 : dsTimeStage (FileAttrsFlags.deserializeWord p.1)
                      (q3.1, q3.2) with
                  | error err => rw [h4] at h; cases h
                  | ok q4 =>
                      rw [h4] at h
                      dsimp only at h
                      cases h5 : dsExtStage (FileAttrsFlags.deserializeWord p.1)
                          q4.2 with
                      | error err => rw [h5] at h; cases h
                      | ok t5 =>
                          rw [h5] at h
                          dsimp only at h
                          cases h
                          have v0 : ({ FileAttrs.new with
                              flags := FileAttrsFlags.deserializeWord p.1 } :
                                FileAttrs).modeValid :=
                            Or.inl (by simp [FileAttrs.new])
                          have v1 := dsSizeStage_st_mode _ _ q1.1 q1.2 (by
                            simpa using h1)
                          have v2 := dsIdStage_st_mode _ _ q2.1 q2.2 (by
                            simpa using h2)
                          have v3 : q3.1.modeValid := by
                            refine dsPermsStage_modeValid _ (q2.1, q2.2) q3.1
                              q3.2 ?_ (by simpa using h3)
                            simpa [FileAttrs.modeValid, v2, v1] using v0
                          have v4 := dsTimeStage_st_mode _ _ q4.1 q4.2 (by
                            simpa using h4)
                          simpa [FileAttrs.modeValid, v4] using v3

/-- Bitwise and distributes over bitwise or on `Nat`. -/
theorem lor_land_right (x y m : Nat) :
    (x ||| y) &&& m = (x &&& m) ||| (y &&& m) := by
  refine Nat.eq_of_testBit_eq fun i => ?_
  simp [Nat.testBit_land, Nat.testBit_lor, Bool.and_or_distrib_right]

/-- Masking with the file-type mask twice is masking once. -/
theorem filetype_mask_idem (m : Nat) :
    (m &&& S_IFMT) &&& S_IFMT = m &&& S_IFMT := by
  rw [S_IFMT, Nat.and_assoc, show (0o170000 &&& 0o170000 : Nat) = 0o170000 from rfl]

/-- `set_permissions` with a `Permissions` value holding only defined bits
keeps the file-type subfield of the mode unchanged. -/
theorem set_permissions_filetype (a : FileAttrs) (p : Permissions)
    (hp : p.bits &&& PERMISSIONS_MASK = p.bits) :
    (a.set_permissions p).st_mode &&& S_IFMT = a.st_mode &&& S_IFMT := by
  have hzero : p.bits &&& S_IFMT = 0 := by
    rw [← hp]
    exact truncated_mode_filetype p.bits
  simp only [FileAttrs.set_permissions, lor_land_right, filetype_mask_idem,
    hzero, Nat.or_zero]

/-- A valid mode makes `get_filetype` total: the internal
`FileType::from_u32(..).unwrap()` cannot panic. -/
theorem FileAttrs.modeValid_get_filetype (a : FileAttrs) (h : a.modeValid) :
    a.get_filetype ≠ none := by
  simp only [FileAttrs.get_filetype]
  split
  · split
    · simp
    · rename_i hz
      rcases h with h0 | h0
      · exact absurd h0 hz
      · obtain ⟨t, ht⟩ := Option.isSome_iff_exists.mp h0
        rw [ht]
        simp
  · simp

/-- `FileAttrs` values reachable through the public API of `file_attrs.rs`:
`new` (also the `Default`), the four setters, and deserialization. The
`set_permissions` rule carries the invariant of the `bitflags`-generated
`Permissions` API: every `Permissions` obtainable from it (named constants,
set operations, `from_bits_truncate`) holds only the twelve defined bits. -/
inductive FileAttrs.Reachable : FileAttrs → Prop where
  | is_new : FileAttrs.Reachable FileAttrs.new
  | of_set_size (a : FileAttrs) (n : Nat) :
      FileAttrs.Reachable a → FileAttrs.Reachable (a.set_size n)
  | of_set_id (a : FileAttrs) (u g : Nat) :
      FileAttrs.Reachable a → FileAttrs.Reachable (a.set_id u g)
  | of_set_permissions (a : FileAttrs) (p : Permissions) :
      p.bits &&& PERMISSIONS_MASK = p.bits →
      FileAttrs.Reachable a → FileAttrs.Reachable (a.set_permissions p)
  | of_set_time (a : FileAttrs) (t1 t2 : UnixTimeStamp) :
      FileAttrs.Reachable a → FileAttrs.Reachable (a.set_time t1 t2)
  | of_deserialize (toks rest : List Token) (a : FileAttrs) :
      FileAttrs.deserialize toks = Except.ok (a, rest) →
      FileAttrs.Reachable a

/-- Every reachable `FileAttrs` has a valid mode. -/
theorem FileAttrs.Reachable.modeValid {a : FileAttrs} (h : a.Reachable) :
    a.modeValid := by
  induction h with
  | is_new => exact Or.inl (by simp [FileAttrs.new])
  | of_set_size a n _ ih =>
      simpa [FileAttrs.modeValid, FileAttrs.set_size] using ih
  | of_set_id a u g _ ih =>
      simpa [FileAttrs.modeValid, FileAttrs.set_id] using ih
  | of_set_permissions a p hp _ ih =>
      have hft := set_permissions_filetype a p hp
      simp only [FileAttrs.modeValid] at ih ⊢
      rw [hft]
      exact ih
  | of_set_time a t1 t2 _ ih =>
      simpa [FileAttrs.modeValid, FileAttrs.set_time] using ih
  | of_deserialize toks rest a hd =>
      exact FileAttrs.deserialize_modeValid toks a rest hd

/-- **C10.** Every `FileAttrs` reachable through the public API (`new` /
default, the four setters, deserialization) has a mode whose file-type
subfield is zero or one of the seven `FileType` values; hence
`get_filetype` is total on reachable values (its internal `unwrap` cannot
panic), and `set_permissions` replaces only the permission bits, keeps the
file-type subfield, and preserves the invariant. -/
theorem fileAttrs_filetype_invariant (a : FileAttrs) (h : a.Reachable)
    (p : Permissions) (hp : p.bits &&& PERMISSIONS_MASK = p.bits) :
    a.modeValid
    ∧ a.get_filetype ≠ none
    ∧ (a.set_permissions p).st_mode = (a.st_mode &&& S_IFMT) ||| p.bits
    ∧ (a.set_permissions p).st_mode &&& S_IFMT = a.st_mode &&& S_IFMT
    ∧ (a.set_permissions p).modeValid
    ∧ (a.set_permissions p).get_filetype ≠ none := by
  have hm := h.modeValid
  have hm2 := (FileAttrs.Reachable.of_set_permissions a p hp h).modeValid
  exact ⟨hm, FileAttrs.modeValid_get_filetype a hm, rfl,
    set_permissions_filetype a p hp, hm2,
    FileAttrs.modeValid_get_filetype _ hm2⟩

/-- **C10 witness.** The invariant at the concrete reachable value
`FileAttrs::new()` and the permissions `0o644`. -/
theorem fileAttrs_filetype_invariant_witness :
    FileAttrs.new.modeValid
    ∧ FileAttrs.new.get_filetype ≠ none
    ∧ (FileAttrs.new.set_permissions ⟨420⟩).st_mode =
        (FileAttrs.new.st_mode &&& S_IFMT) ||| (420 : Nat)
    ∧ (FileAttrs.new.set_permissions ⟨420⟩).st_mode &&& S_IFMT =
        FileAttrs.new.st_mode &&& S_IFMT
    ∧ (FileAttrs.new.set_permissions ⟨420⟩).modeValid
    ∧ (FileAttrs.new.set_permissions ⟨420⟩).get_filetype ≠ none :=
  fileAttrs_filetype_invariant FileAttrs.new FileAttrs.Reachable.is_new
    ⟨420⟩ (by decide)

/-! ## Byte-level reader lemmas -/

/-- A successful big-endian `u32` read consumes exactly four bytes. -/
theorem readU32be_length (bs : List Nat) (n : Nat) (r : List Nat)
    (h : readU32be bs = some (n, r)) : bs.length = 4 + r.length := by
  rcases bs with _ | ⟨b0, _ | ⟨b1, _ | ⟨b2, _ | ⟨b3, rest⟩⟩⟩⟩ <;>
    simp [readU32be] at h
  obtain ⟨-, h2⟩ := h
  simp [← h2]
  omega

/-- A successful byte-string read consumes at least its four length bytes. -/
theorem readByteString_length (bs s rest : List Nat)
    (h : readByteString bs = some (s, rest)) : 4 + rest.length ≤ bs.length := by
  unfold readByteString at h
  cases hr : readU32be bs with
  | none => rw [hr] at h; cases h
  | some p =>
      rw [hr] at h
      simp only [bind, Option.bind] at h
      split at h
      · cases h
        have := readU32be_length bs p.1 p.2 hr
        simp [List.length_drop]
        omega
      · cases h

/-- Reading back an encoded big-endian `u32`. -/
theorem readU32be_encodeU32be (n : Nat) (hn : n < 2 ^ 32) (r : List Nat) :
    readU32be (encodeU32be n ++ r) = some (n, r) := by
  simp only [encodeU32be, List.cons_append, List.nil_append, readU32be,
    Option.some.injEq, Prod.mk.injEq]
  exact ⟨by omega, trivial⟩

/-- Reading back an encoded byte string. -/
theorem readByteString_encodeByteString (s : List Nat) (hs : s.length < 2 ^ 32)
    (r : List Nat) :
    readByteString (encodeByteString s ++ r) = some (s, r) := by
  unfold readByteString encodeByteString
  rw [List.append_assoc, readU32be_encodeU32be s.length hs (s ++ r)]
  simp only [bind, Option.bind]
  rw [if_pos (by simp)]
  rw [List.take_left, List.drop_left]

/-- The handshake loop computes the same result under any sufficient fuel. -/
theorem extLoop_fuel_irrel :
    ∀ (f1 f2 : Nat) (bs : List Nat) (e : Response.Extensions),
      bs.length ≤ f1 → bs.length ≤ f2 → extLoop f1 bs e = extLoop f2 bs e := by
  intro f1
  induction f1 with
  | zero =>
      intro f2 bs e h1 h2
      have hb : bs = [] := List.length_eq_zero.mp (Nat.le_zero.mp h1)
      subst hb
      cases f2 <;> rfl
  | succ f ih =>
      intro f2 bs e h1 h2
      cases bs with
      | nil => cases f2 <;> rfl
      | cons b bs1 =>
          cases f2 with
          | zero => simp at h2
          | succ f2 =>
              show extLoop (f + 1) (b :: bs1) e = extLoop (f2 + 1) (b :: bs1) e
              simp only [extLoop]
              cases hr1 : readByteString (b :: bs1) with
              | none => rfl
              | some p1 =>
                  dsimp only
                  cases hr2 : readByteString p1.2 with
                  | none => rfl
                  | some p2 =>
                      dsimp only
                      have l1 := readByteString_length _ _ _ hr1
                      have l2 := readByteString_length _ _ _ hr2
                      simp only [List.length_cons] at h1 h2 l1
                      exact ih f2 p2.2 _ (by omega) (by omega)

/-- The byte length of an encoded byte string: four length bytes plus the
content. -/
theorem encodeByteString_length (s : List Nat) :
    (encodeByteString s).length = 4 + s.length := by
  simp [encodeByteString, encodeU32be]
  omega

/-- Unfolding one (name, revision) pair at the head of the handshake loop:
the two byte strings are read, the pair is processed, and the loop continues
on the remaining bytes. -/
theorem extLoop_cons_pair (name rev rest : List Nat) (e : Response.Extensions)
    (fuel : Nat) (hname : name.length < 2 ^ 32) (hrev : rev.length < 2 ^ 32)
    (hfuel : (encodeByteString name ++ encodeByteString rev ++ rest).length
      ≤ fuel) :
    extLoop fuel (encodeByteString name ++ encodeByteString rev ++ rest) e =
      extLoop rest.length rest (processExtensionPair name rev e) := by
  have hlen : (encodeByteString name ++ encodeByteString rev ++ rest).length =
      4 + name.length + (4 + rev.length) + rest.length := by
    simp [encodeByteString_length]
    omega
  cases fuel with
  | zero => rw [hlen] at hfuel; omega
  | succ f =>
      have hcons : ∃ b bs1,
          encodeByteString name ++ encodeByteString rev ++ rest = b :: bs1 := by
        simp [encodeByteString, encodeU32be]
      obtain ⟨b, bs1, hc⟩ := hcons
      rw [hc]
      simp only [extLoop]
      rw [← hc, List.append_assoc,
        readByteString_encodeByteString name hname
          (encodeByteString rev ++ rest)]
      dsimp only
      rw [readByteString_encodeByteString rev hrev rest]
      dsimp only
      rw [hlen] at hfuel
      exact extLoop_fuel_irrel f rest.length rest _ (by omega) (Nat.le_refl _)

/-- A malformed pair (invalid UTF-8 name or revision, or a revision that
does not parse as a decimal `u64`) is processed to the unchanged extension
set: each `ok_or_continue!` failure skips the pair. -/
theorem processExtensionPair_malformed (name rev : List Nat)
    (e : Response.Extensions)
    (hbad : utf8Valid name = false ∨ utf8Valid rev = false
      ∨ parseDecimalU64 rev = none) :
    processExtensionPair name rev e = e := by
  rcases hbad with h | h | h <;> simp [processExtensionPair, h]

/-- Decoding a `ServerVersion` packet: after the opcode and version are
read, the result is the extension loop folded over the trailing bytes. -/
theorem serverVersion_deserialize_version (v : Nat) (hv : v < 2 ^ 32)
    (tail : List Nat) :
    ServerVersion.deserialize ([SSH_FXP_VERSION] ++ encodeU32be v ++ tail) =
      match extLoop tail.length tail Response.Extensions.default with
      | Except.ok e => Except.ok ⟨v, e⟩
      | Except.error err => Except.error err := by
  unfold ServerVersion.deserialize
  simp only [SSH_FXP_VERSION, List.cons_append, List.nil_append, readU8]
  rw [readU32be_encodeU32be v hv tail]
  simp

/-- **C6.** During `ServerVersion` decoding, a trailing (name, revision)
pair whose name or revision is not valid UTF-8, or whose revision does not
parse as a decimal `u64`, is skipped silently: the loop continues on the
remaining bytes with the extension set unchanged (first conjunct, for any
loop state and any sufficient fuel), and whole-packet decoding gives the
same result as if the malformed pair were absent (second conjunct) — the
decoder does not abort on such announcements. -/
theorem serverVersion_malformed_pair_skipped (v : Nat)
    (name rev rest : List Nat) (e : Response.Extensions) (fuel : Nat)
    (hv : v < 2 ^ 32) (hname : name.length < 2 ^ 32)
    (hrev : rev.length < 2 ^ 32)
    (hfuel : (encodeByteString name ++ encodeByteString rev ++ rest).length
      ≤ fuel)
    (hbad : utf8Valid name = false ∨ utf8Valid rev = false
      ∨ parseDecimalU64 rev = none) :
    extLoop fuel (encodeByteString name ++ encodeByteString rev ++ rest) e =
      extLoop rest.length rest e
    ∧ ServerVersion.deserialize
        ([SSH_FXP_VERSION] ++ encodeU32be v ++
          (encodeByteString name ++ encodeByteString rev ++ rest)) =
      ServerVersion.deserialize ([SSH_FXP_VERSION] ++ encodeU32be v ++ rest) := by
  have hloop : ∀ f, (encodeByteString name ++ encodeByteString rev ++
      rest).length ≤ f →
      ∀ e2, extLoop f (encodeByteString name ++ encodeByteString rev ++ rest)
        e2 = extLoop rest.length rest e2 := by
    intro f hf e2
    rw [extLoop_cons_pair name rev rest e2 f hname hrev hf,
      processExtensionPair_malformed name rev e2 hbad]
  refine ⟨hloop fuel hfuel e, ?_⟩
  rw [serverVersion_deserialize_version v hv, serverVersion_deserialize_version v hv,
    hloop _ (Nat.le_refl _)]

/-- **C6 witness.** The skip theorem at the concrete packet: version 3, a
pair whose name is the invalid UTF-8 byte `0xFF` and whose revision is
`"1"`, with nothing following. -/
theorem serverVersion_malformed_pair_skipped_witness :
    extLoop 10 (encodeByteString [255] ++ encodeByteString [49] ++ []) Response.Extensions.default =
      extLoop (List.length ([] : List Nat)) ([] : List Nat) Response.Extensions.default
    ∧ ServerVersion.deserialize
        ([SSH_FXP_VERSION] ++ encodeU32be 3 ++
          (encodeByteString [255] ++ encodeByteString [49] ++ [])) =
      ServerVersion.deserialize ([SSH_FXP_VERSION] ++ encodeU32be 3 ++ []) :=
  serverVersion_malformed_pair_skipped 3 [255] [49] [] Response.Extensions.default 10
    (by decide) (by decide) (by decide) (by decide) (Or.inl (by decide))

/-- The well-formed announcement `("copy-data", 1)` parses but matches no
arm of the recognition `match` in this crate revision (there is no
`copy_data` arm and no `copy_data` field): it falls through to `_ => ()`
and the extension set is unchanged. -/
theorem processExtensionPair_copy_data (e : Response.Extensions) :
    processExtensionPair EXT_NAME_COPY_DATA.1 [49] e = e := by
  have h1 : utf8Valid EXT_NAME_COPY_DATA.1 = true := by decide
  have h2 : utf8Valid [49] = true := by decide
  have h3 : parseDecimalU64 [49] = some 1 := by decide
  have n1 : (EXT_NAME_COPY_DATA.1, (1 : Nat)) ≠ EXT_NAME_POSIX_RENAME := by decide
  have n2 : (EXT_NAME_COPY_DATA.1, (1 : Nat)) ≠ EXT_NAME_STATVFS := by decide
  have n3 : (EXT_NAME_COPY_DATA.1, (1 : Nat)) ≠ EXT_NAME_FSTATVFS := by decide
  have n4 : (EXT_NAME_COPY_DATA.1, (1 : Nat)) ≠ EXT_NAME_HARDLINK := by decide
  have n5 : (EXT_NAME_COPY_DATA.1, (1 : Nat)) ≠ EXT_NAME_FSYNC := by decide
  have n6 : (EXT_NAME_COPY_DATA.1, (1 : Nat)) ≠ EXT_NAME_LSETSTAT := by decide
  have n7 : (EXT_NAME_COPY_DATA.1, (1 : Nat)) ≠ EXT_NAME_LIMITS := by decide
  have n8 : (EXT_NAME_COPY_DATA.1, (1 : Nat)) ≠ EXT_NAME_EXPAND_PATH := by decide
  simp [processExtensionPair, h1, h2, h3, n1, n2, n3, n4, n5, n6, n7, n8]

/-- **C4 counterexample.** Decoding a `ServerVersion` packet announcing
`("copy-data", 1)` succeeds, but no flag is set: the result equals the
default extension set, whose type carries exactly the eight flags
`posix_rename, statvfs, fstatvfs, hardlink, fsync, lsetstat, limits,
expand_path` — there is no `copy_data` flag to set. -/
theorem serverVersion_copy_data_no_flag :
    ServerVersion.deserialize
        ([2] ++ encodeU32be 3 ++ encodeByteString EXT_NAME_COPY_DATA.1 ++
          encodeByteString [49]) =
      Except.ok ⟨3, Response.Extensions.default⟩
    ∧ Response.Extensions.default =
      ⟨false, false, false, false, false, false, false, false⟩ := by
  decide

/-- **C4 amended.** For every version and packet tail, a well-formed
`("copy-data", 1)` announcement decodes without error and leaves the
returned extension set — which consists of the flags `posix_rename,
statvfs, fstatvfs, hardlink, fsync, lsetstat, limits, expand_path` only —
exactly as it would be without the announcement; with no further trailing
pairs the result is the default (all-false) set. This crate revision does
not recognize `copy-data` during the handshake. -/
theorem serverVersion_copy_data_ignored (v : Nat) (rest : List Nat)
    (hv : v < 2 ^ 32) :
    ServerVersion.deserialize
        ([SSH_FXP_VERSION] ++ encodeU32be v ++
          (encodeByteString EXT_NAME_COPY_DATA.1 ++ encodeByteString [49] ++
            rest)) =
      ServerVersion.deserialize ([SSH_FXP_VERSION] ++ encodeU32be v ++ rest)
    ∧ ServerVersion.deserialize
        ([SSH_FXP_VERSION] ++ encodeU32be v ++
          (encodeByteString EXT_NAME_COPY_DATA.1 ++ encodeByteString [49])) =
      Except.ok ⟨v, Response.Extensions.default⟩ := by
  have hloop : ∀ (rest2 : List Nat) (f : Nat),
      (encodeByteString EXT_NAME_COPY_DATA.1 ++ encodeByteString [49] ++
        rest2).length ≤ f →
      extLoop f (encodeByteString EXT_NAME_COPY_DATA.1 ++
        encodeByteString [49] ++ rest2) Response.Extensions.default =
      extLoop rest2.length rest2 Response.Extensions.default := by
    intro rest2 f hf
    rw [extLoop_cons_pair EXT_NAME_COPY_DATA.1 [49] rest2
        Response.Extensions.default f (by decide) (by decide) hf,
      processExtensionPair_copy_data]
  constructor
  · rw [serverVersion_deserialize_version v hv,
      serverVersion_deserialize_version v hv, hloop rest _ (Nat.le_refl _)]
  · have h2 : encodeByteString EXT_NAME_COPY_DATA.1 ++ encodeByteString [49] =
        encodeByteString EXT_NAME_COPY_DATA.1 ++ encodeByteString [49] ++ [] := by
      simp
    rw [serverVersion_deserialize_version v hv, h2, hloop [] _ (by simp)]
    rfl

/-- **C4 amended witness.** The theorem at version 3 with an empty tail. -/
theorem serverVersion_copy_data_ignored_witness :
    ServerVersion.deserialize
        ([SSH_FXP_VERSION] ++ encodeU32be 3 ++
          (encodeByteString EXT_NAME_COPY_DATA.1 ++ encodeByteString [49] ++
            [])) =
      ServerVersion.deserialize ([SSH_FXP_VERSION] ++ encodeU32be 3 ++ [])
    ∧ ServerVersion.deserialize
        ([SSH_FXP_VERSION] ++ encodeU32be 3 ++
          (encodeByteString EXT_NAME_COPY_DATA.1 ++ encodeByteString [49])) =
      Except.ok ⟨3, Response.Extensions.default⟩ :=
  serverVersion_copy_data_ignored 3 [] (by decide)
